import Mathlib

/-!
# Verification of the product-management-server request handlers

Shallow embedding of the Express route handlers of the repository
`shakibwebx/product-management-server`. The repository carries two
variants of the handler set:

* `IndexJs.*` embeds the first module of `src/index.js` (the standalone
  server: create with `Number(x) || 0` coercion, allow-listed update
  fields, sell with a `lastSold` stamp, delete with an existence
  pre-check);
* `AppJs.*` embeds `src/unnamed/part_000` and the second module of
  `src/index.js` (the `api/app` module loaded by `src/server.js`), whose
  handler bodies are logically identical: create with
  `parseFloat`/`parseInt` plus a NaN rejection, strip-based update
  sanitisation, sell without a `lastSold` stamp, delete checked by
  `deletedCount`.

Request bodies and stored documents are association lists from field
names to JavaScript values; the MongoDB collection is an association
list from `_id` strings to documents (ids generated by insertion are
unique, matching Mongo's `_id` uniqueness, so `updateOne`/`deleteOne`
touching the first match is modelled by key-directed map/remove).
Numbers are rationals; `NaN` outcomes of coercions are `Option.none`.
-/

/-- A JavaScript value as it can appear in a parsed JSON body or in a
stored document: `undef` is the result of reading an absent property,
`date` models a `Date` object by its timestamp. -/
inductive JsValue where
  | undef
  | null
  | bool (b : Bool)
  | num (q : ℚ)
  | str (s : String)
  | date (t : ℕ)
deriving DecidableEq, Repr

/-- JavaScript truthiness test: `undefined`, `null`, `false`, `0` and
the empty string are falsy (our value space contains no `NaN` value). -/
def jsFalsy : JsValue → Bool
  | JsValue.undef => true
  | JsValue.null => true
  | JsValue.bool b => !b
  | JsValue.num q => decide (q = 0)
  | JsValue.str s => decide (s = "")
  | JsValue.date _ => false

/-- Strict-equality test against `undefined` (`x === undefined`). -/
def isUndef : JsValue → Bool
  | JsValue.undef => true
  | _ => false

/-- Whether the value is a string (`typeof x === 'string'`). -/
def isStr : JsValue → Bool
  | JsValue.str _ => true
  | _ => false

/-- Drop whitespace from both ends of a character list (as
`String.prototype.trim` does). -/
def trimChars (cs : List Char) : List Char :=
  ((cs.dropWhile Char.isWhitespace).reverse.dropWhile Char.isWhitespace).reverse

/-- The trimmed string (`s.trim()`). -/
def trimStr (s : String) : String :=
  String.mk (trimChars s.toList)

/-- Value of a list of decimal digit characters. -/
def digitsVal (cs : List Char) : ℕ :=
  cs.foldl (fun a c => a * 10 + (c.toNat - 48)) 0

/-- Parse a full unsigned decimal literal (`ddd`, `ddd.ddd`, `.ddd`,
`ddd.`): the whole input must be consumed and at least one digit must be
present, else the result is `NaN` (`none`).  Exponent and hexadecimal
forms of JavaScript numeric literals are not needed by any handler input
considered here and are left out of the model. -/
def parseUnsignedFull (cs : List Char) : Option ℚ :=
  let ip := cs.takeWhile Char.isDigit
  let rest := cs.dropWhile Char.isDigit
  match rest with
  | [] => if ip.isEmpty then none else some (digitsVal ip)
  | '.' :: r2 =>
    let fp := r2.takeWhile Char.isDigit
    let r3 := r2.dropWhile Char.isDigit
    if r3.isEmpty && !(ip.isEmpty && fp.isEmpty) then
      some ((digitsVal ip : ℚ) + (digitsVal fp : ℚ) / (10 : ℚ) ^ fp.length)
    else none
  | _ => none

/-- Full signed decimal literal. -/
def parseSignedFull : List Char → Option ℚ
  | '+' :: cs => parseUnsignedFull cs
  | '-' :: cs => (parseUnsignedFull cs).map (fun q => -q)
  | cs => parseUnsignedFull cs

/-- The `Number(string)` conversion: trim, the empty string converts to
`0`, otherwise the whole string must be a decimal literal. -/
def numberOfString (s : String) : Option ℚ :=
  let cs := trimChars s.toList
  if cs.isEmpty then some 0 else parseSignedFull cs

/-- The `ToNumber` conversion used by `Number(x)` and by relational
comparison against a number: `undefined` gives `NaN`, `null` gives `0`,
booleans give `0`/`1`, a `Date` gives its timestamp. -/
def jsNumber : JsValue → Option ℚ
  | JsValue.undef => none
  | JsValue.null => some 0
  | JsValue.bool b => some (if b then 1 else 0)
  | JsValue.num q => some q
  | JsValue.str s => numberOfString s
  | JsValue.date t => some (t : ℚ)

/-- The expression `Number(x) || 0` of the `src/index.js` create
handler: a falsy conversion result (`NaN` or `0`) is replaced by `0`. -/
def jsNumberOr0 (v : JsValue) : ℚ :=
  match jsNumber v with
  | none => 0
  | some q => if q = 0 then 0 else q

/-- The test `x <= 0` on a stored field value, per the JavaScript
relational semantics against the number literal `0`: a `NaN` conversion
compares false. -/
def jsLe0 (v : JsValue) : Bool :=
  match jsNumber v with
  | none => false
  | some q => decide (q ≤ 0)

/-- Leading unsigned decimal literal for `parseFloat`: longest valid
numeric head of the input, `NaN` when no digit is consumed. -/
def parseUnsignedHead (cs : List Char) : Option ℚ :=
  let ip := cs.takeWhile Char.isDigit
  let rest := cs.dropWhile Char.isDigit
  match rest with
  | '.' :: r2 =>
    let fp := r2.takeWhile Char.isDigit
    if ip.isEmpty && fp.isEmpty then none
    else some ((digitsVal ip : ℚ) + (digitsVal fp : ℚ) / (10 : ℚ) ^ fp.length)
  | _ => if ip.isEmpty then none else some (digitsVal ip)

/-- `parseFloat` on a string: skip leading whitespace, optional sign,
then the longest decimal head. -/
def parseFloatOfString (s : String) : Option ℚ :=
  match s.toList.dropWhile Char.isWhitespace with
  | '+' :: cs => parseUnsignedHead cs
  | '-' :: cs => (parseUnsignedHead cs).map (fun q => -q)
  | cs => parseUnsignedHead cs

/-- Leading digit run for `parseInt`. -/
def parseNatHead (cs : List Char) : Option ℤ :=
  let ip := cs.takeWhile Char.isDigit
  if ip.isEmpty then none else some (digitsVal ip : ℤ)

/-- `parseInt` (radix 10) on a string: skip leading whitespace, optional
sign, then the longest digit run. -/
def parseIntOfString (s : String) : Option ℤ :=
  match s.toList.dropWhile Char.isWhitespace with
  | '+' :: cs => parseNatHead cs
  | '-' :: cs => (parseNatHead cs).map (fun z => -z)
  | cs => parseNatHead cs

/-- `parseFloat(x)`: the argument is converted to a string first, so
`undefined`, `null`, booleans and `Date` objects all yield `NaN`;
numbers round-trip through their decimal notation. -/
def parseFloatV : JsValue → Option ℚ
  | JsValue.num q => some q
  | JsValue.str s => parseFloatOfString s
  | _ => none

/-- Truncation toward zero, the integer `parseInt` extracts from the
decimal notation of a (non-exponent-notated) number. -/
def jsTrunc (q : ℚ) : ℤ :=
  q.num.tdiv (q.den : ℤ)

/-- `parseInt(x)` (radix 10) after `ToString`: numbers are truncated
toward zero, non-string non-number arguments yield `NaN`. -/
def parseIntV : JsValue → Option ℤ
  | JsValue.num q => some (jsTrunc q)
  | JsValue.str s => parseIntOfString s
  | _ => none

/-- A stored document or request body: ordered field list. -/
abbrev Doc := List (String × JsValue)

/-- The products collection: `_id` string paired with the document's
other fields.  Ids generated at insertion are unique. -/
abbrev Store := List (String × Doc)

/-- Property read `doc[k]`: an absent field reads as `undefined`. -/
def getField (d : Doc) (k : String) : JsValue :=
  (d.lookup k).getD JsValue.undef

/-- Property write `doc[k] = v` (also the effect of a `$set` on one
field): replace the binding in place, or append a fresh one. -/
def setField : Doc → String → JsValue → Doc
  | [], k, v => [(k, v)]
  | (k', v') :: rest, k, v =>
    if k' = k then (k, v) :: rest else (k', v') :: setField rest k v

/-- A `$set` with a whole update map: fields applied left to right. -/
def mongoSet (d : Doc) (m : Doc) : Doc :=
  m.foldl (fun acc kv => setField acc kv.1 kv.2) d

/-- `updateOne({_id: i}, ...)`: rewrite the document stored under `i`
(ids are unique, so this is the single matched document). -/
def updateDocAt (s : Store) (i : String) (f : Doc → Doc) : Store :=
  s.map (fun e => if e.1 = i then (e.1, f e.2) else e)

/-- `deleteOne({_id: i})`: remove the first document stored under `i`. -/
def removeFirst : Store → String → Store
  | [], _ => []
  | e :: rest, i => if e.1 = i then rest else e :: removeFirst rest i

/-- Hexadecimal digit test used by `ObjectId.isValid`. -/
def isHexChar (c : Char) : Bool :=
  c.isDigit || ('a' ≤ c && c ≤ 'f') || ('A' ≤ c && c ≤ 'F')

/-- The driver's `ObjectId.isValid` on a string: a 12-character string,
or a 24-character hexadecimal string. -/
def isValidObjectId (s : String) : Bool :=
  s.length = 12 || (s.length = 24 && s.toList.all isHexChar)

/-- HTTP response: status code, message, and the optional counts and
document payload the handlers report. -/
structure Resp where
  status : ℕ
  message : String
  deletedCount : Option ℕ
  modifiedCount : Option ℕ
  body : Option Doc
deriving DecidableEq, Repr

/-- A 400 response. -/
def Resp.bad (m : String) : Resp := ⟨400, m, none, none, none⟩

/-- A 404 response. -/
def Resp.notFound (m : String) : Resp := ⟨404, m, none, none, none⟩

/-- A 500 response (caught handler exception). -/
def Resp.serverError (m : String) : Resp := ⟨500, m, none, none, none⟩

/-- Required-field test of the `part_000` / `api/app` create handler:
`(!product.name && !product.model) || !product.price ||
product.stock === undefined`. -/
def AppJs.requiredMissing (body : Doc) : Bool :=
  (jsFalsy (getField body "name") && jsFalsy (getField body "model"))
    || jsFalsy (getField body "price")
    || isUndef (getField body "stock")

/-- POST `/products` of `part_000` / the `api/app` module: required-field
check, then `parseFloat`/`parseInt` coercion of `price`/`stock` with a
400 on a `NaN` result, then `insertOne` of the mutated body. -/
def AppJs.create (body : Doc) (store : Store) (newId : String) : Resp × Store :=
  if AppJs.requiredMissing body then
    (Resp.bad "Missing required fields: name or model, price, and stock are required", store)
  else
    match parseFloatV (getField body "price"), parseIntV (getField body "stock") with
    | some p, some st =>
      let doc := setField (setField body "price" (JsValue.num p)) "stock" (JsValue.num (st : ℚ))
      (⟨201, "Product added successfully", none, none, some doc⟩, store ++ [(newId, doc)])
    | _, _ => (Resp.bad "Price and stock must be valid numbers", store)

/-- GET `/products/:id` of `part_000` / the `api/app` module. -/
def AppJs.getById (id : String) (store : Store) : Resp × Store :=
  if !isValidObjectId id then (Resp.bad "Invalid product ID format", store)
  else
    match store.lookup id with
    | none => (Resp.notFound "Product not found", store)
    | some d => (⟨200, "", none, none, some d⟩, store)

/-- Filter of the `part_000` / `api/app` PATCH sanitisation loop: a
field is kept when its value is not `undefined`, `null` or `''`. -/
def keepField (kv : String × JsValue) : Bool :=
  !(isUndef kv.2 || decide (kv.2 = JsValue.null) || decide (kv.2 = JsValue.str ""))

/-- The sanitisation loop of the `part_000` / `api/app` PATCH handler:
keep only fields whose value is not `undefined`, `null` or `''`. -/
def stripBody (body : Doc) : Doc :=
  body.filter keepField

/-- Price step of the `part_000` / `api/app` PATCH handler: when a
`price` entry is present, `parseFloat` it and reject `NaN` with the 400
message. -/
def AppJs.coercePrice (m : Doc) : Except String Doc :=
  if isUndef (getField m "price") then Except.ok m
  else match parseFloatV (getField m "price") with
       | some p => Except.ok (setField m "price" (JsValue.num p))
       | none => Except.error "Price must be a valid number"

/-- Stock step of the `part_000` / `api/app` PATCH handler: when a
`stock` entry is present, `parseInt` it and reject `NaN` with the 400
message. -/
def AppJs.coerceStock (m : Doc) : Except String Doc :=
  if isUndef (getField m "stock") then Except.ok m
  else match parseIntV (getField m "stock") with
       | some st => Except.ok (setField m "stock" (JsValue.num (st : ℚ)))
       | none => Except.error "Stock must be a valid number"

/-- Numeric coercion of the `part_000` / `api/app` PATCH handler:
`price` first, then `stock`, first failure aborting with its 400. -/
def AppJs.coerceUpdates (m : Doc) : Except String Doc :=
  match AppJs.coercePrice m with
  | Except.error e => Except.error e
  | Except.ok m1 => AppJs.coerceStock m1

/-- PATCH `/products/:id` of `part_000` / the `api/app` module: id
check, strip, empty-map 400, numeric coercion, `$set` merge, 404 when
`matchedCount` is 0. -/
def AppJs.update (id : String) (body : Doc) (store : Store) : Resp × Store :=
  if !isValidObjectId id then (Resp.bad "Invalid product ID format", store)
  else
    let validUpdates := stripBody body
    if validUpdates.isEmpty then (Resp.bad "No valid fields to update", store)
    else
      match AppJs.coerceUpdates validUpdates with
      | Except.error e => (Resp.bad e, store)
      | Except.ok m =>
        match store.lookup id with
        | none => (Resp.notFound "Product not found", store)
        | some _ =>
          (⟨200, "Product updated successfully", none, some 1, none⟩,
            updateDocAt store id (fun d => mongoSet d m))

/-- PATCH `/products/:id/sell` of `part_000` / the `api/app` module:
find the product, reject when `stock <= 0`, otherwise `$inc` the stock
by `-1` (an absent stock field is created at `-1`, a non-numeric one is
a write error caught as a 500).  No `lastSold` stamp in this variant. -/
def AppJs.sell (id : String) (store : Store) : Resp × Store :=
  if !isValidObjectId id then (Resp.bad "Invalid product ID format", store)
  else
    match store.lookup id with
    | none => (Resp.notFound "Product not found", store)
    | some product =>
      if jsLe0 (getField product "stock") then (Resp.bad "Out of stock", store)
      else
        match getField product "stock" with
        | JsValue.num q =>
          (⟨200, "Product sold successfully", none, some 1, none⟩,
            updateDocAt store id (fun _ => setField product "stock" (JsValue.num (q - 1))))
        | JsValue.undef =>
          (⟨200, "Product sold successfully", none, some 1, none⟩,
            updateDocAt store id (fun _ => setField product "stock" (JsValue.num (-1))))
        | _ => (Resp.serverError "Server error during sale", store)

/-- DELETE `/products/:id` of `part_000` / the `api/app` module:
`deleteOne`, then 404 when `deletedCount` is 0. -/
def AppJs.deleteById (id : String) (store : Store) : Resp × Store :=
  if !isValidObjectId id then (Resp.bad "Invalid product ID format", store)
  else
    let deletedCount : ℕ := if (store.lookup id).isSome then 1 else 0
    let store' := removeFirst store id
    if deletedCount = 0 then (Resp.notFound "Product not found", store')
    else (⟨200, "Product deleted successfully", some deletedCount, none, none⟩, store')

/-- POST `/products` of the standalone `src/index.js` module: require
truthy `category` and `model`, then build a fresh document with
`Number(x) || 0` coercion of `price`/`stock` (no NaN rejection) and a
`createdAt` stamp. -/
def IndexJs.create (body : Doc) (now : ℕ) (store : Store) (newId : String) : Resp × Store :=
  if jsFalsy (getField body "category") || jsFalsy (getField body "model") then
    (Resp.bad "Category and model are required fields", store)
  else
    let productData : Doc :=
      [("category", getField body "category"),
       ("model", getField body "model"),
       ("price", JsValue.num (jsNumberOr0 (getField body "price"))),
       ("stock", JsValue.num (jsNumberOr0 (getField body "stock"))),
       ("createdAt", JsValue.date now)]
    (⟨201, "Product added successfully", none, none, some productData⟩,
      store ++ [(newId, productData)])

/-- The allow-list loop of the standalone `src/index.js` PATCH handler:
for each of `category`, `model`, `price`, `stock` present in the body,
`price`/`stock` must convert (`Number`) to a non-negative number and
`category`/`model` must be a non-empty (after trim) string; the first
offending field aborts with its 400 message. -/
def IndexJs.sanitizeLoop : List String → Doc → Except String Doc
  | [], _ => Except.ok []
  | f :: rest, body =>
    let v := getField body f
    if isUndef v then IndexJs.sanitizeLoop rest body
    else
      if f = "price" ∨ f = "stock" then
        match jsNumber v with
        | none => Except.error (f ++ " must be a valid non-negative number")
        | some q =>
          if q < 0 then Except.error (f ++ " must be a valid non-negative number")
          else (IndexJs.sanitizeLoop rest body).map (fun m => (f, JsValue.num q) :: m)
      else
        if f = "category" ∨ f = "model" then
          if jsFalsy v || !isStr v ||
              decide ((match v with | JsValue.str s => trimStr s | _ => "") = "") then
            Except.error (f ++ " cannot be empty")
          else
            (IndexJs.sanitizeLoop rest body).map
              (fun m => (f, JsValue.str (match v with | JsValue.str s => trimStr s | _ => "")) :: m)
        else IndexJs.sanitizeLoop rest body

/-- The allow-list of mutable fields of the standalone `src/index.js`
PATCH handler. -/
def IndexJs.allowedFields : List String := ["category", "model", "price", "stock"]

/-- PATCH `/products/:id` of the standalone `src/index.js` module: id
check, existence pre-check (404), allow-list sanitisation, empty-map
400, `updatedAt` stamp, `$set` merge, 400 when `modifiedCount` is 0. -/
def IndexJs.update (id : String) (body : Doc) (now : ℕ) (store : Store) : Resp × Store :=
  if !isValidObjectId id then (Resp.bad "Invalid product ID format", store)
  else
    match store.lookup id with
    | none => (Resp.notFound "Product not found", store)
    | some existing =>
      match IndexJs.sanitizeLoop IndexJs.allowedFields body with
      | Except.error e => (Resp.bad e, store)
      | Except.ok sanitized =>
        if sanitized.isEmpty then (Resp.bad "No valid fields to update", store)
        else
          let sanitized' := sanitized ++ [("updatedAt", JsValue.date now)]
          let d' := mongoSet existing sanitized'
          let store' := updateDocAt store id (fun d => mongoSet d sanitized')
          if d' = existing then (Resp.bad "No changes were made to the product", store')
          else (⟨200, "Product updated successfully", none, some 1, none⟩, store')

/-- PATCH `/products/:id/sell` of the standalone `src/index.js` module:
as the other variant but the update also stamps `lastSold`, and a
`modifiedCount` of 0 yields a 400. -/
def IndexJs.sell (id : String) (now : ℕ) (store : Store) : Resp × Store :=
  if !isValidObjectId id then (Resp.bad "Invalid product ID format", store)
  else
    match store.lookup id with
    | none => (Resp.notFound "Product not found", store)
    | some product =>
      if jsLe0 (getField product "stock") then
        (Resp.bad "Product is out of stock", store)
      else
        match getField product "stock" with
        | JsValue.num q =>
          let d' := setField (setField product "stock" (JsValue.num (q - 1)))
            "lastSold" (JsValue.date now)
          let store' := updateDocAt store id (fun _ => d')
          if d' = product then (Resp.bad "Failed to update product stock", store')
          else (⟨200, "Product sold successfully", none, some 1, none⟩, store')
        | JsValue.undef =>
          let d' := setField (setField product "stock" (JsValue.num (-1)))
            "lastSold" (JsValue.date now)
          let store' := updateDocAt store id (fun _ => d')
          if d' = product then (Resp.bad "Failed to update product stock", store')
          else (⟨200, "Product sold successfully", none, some 1, none⟩, store')
        | _ => (Resp.serverError "Server error during sell operation", store)

/-- DELETE `/products/:id` of the standalone `src/index.js` module:
existence pre-check (404), then `deleteOne` with a 400 when
`deletedCount` is 0. -/
def IndexJs.deleteById (id : String) (store : Store) : Resp × Store :=
  if !isValidObjectId id then (Resp.bad "Invalid product ID format", store)
  else
    match store.lookup id with
    | none => (Resp.notFound "Product not found", store)
    | some _ =>
      let deletedCount : ℕ := if (store.lookup id).isSome then 1 else 0
      let store' := removeFirst store id
      if deletedCount = 0 then (Resp.bad "Failed to delete product", store')
      else (⟨200, "Product deleted successfully", some deletedCount, none, none⟩, store')

/-- Unfolding lemma: lookup in a consed association list, phrased with a
propositional key comparison. -/
theorem lookup_cons {β : Type} (i k : String) (v : β) (l : List (String × β)) :
    List.lookup i ((k, v) :: l) = if i = k then some v else List.lookup i l := by
  rw [List.lookup]
  by_cases h : i = k
  · subst h; simp
  · rw [beq_false_of_ne h, if_neg h]

/-- Unfolding lemma for `setField` on a consed document. -/
theorem setField_cons (k0 : String) (v0 : JsValue) (rest : Doc) (k : String) (v : JsValue) :
    setField ((k0, v0) :: rest) k v =
      if k0 = k then (k, v) :: rest else (k0, v0) :: setField rest k v := rfl

/-- Unfolding lemma for `updateDocAt` on a consed store. -/
theorem updateDocAt_cons (k : String) (v : Doc) (rest : Store) (i : String) (f : Doc → Doc) :
    updateDocAt ((k, v) :: rest) i f =
      (if k = i then (k, f v) else (k, v)) :: updateDocAt rest i f := by
  simp only [updateDocAt, List.map_cons]

/-- Unfolding lemma for `removeFirst` on a consed store. -/
theorem removeFirst_cons (k : String) (v : Doc) (rest : Store) (i : String) :
    removeFirst ((k, v) :: rest) i =
      if k = i then rest else (k, v) :: removeFirst rest i := rfl

/-- A successful association-list lookup locates a member. -/
theorem lookup_mem {β : Type} {l : List (String × β)} {i : String} {b : β}
    (h : l.lookup i = some b) : (i, b) ∈ l := by
  induction l with
  | nil => simp [List.lookup] at h
  | cons e rest ih =>
    cases e with
    | mk k v =>
      rw [lookup_cons] at h
      by_cases hik : i = k
      · rw [if_pos hik] at h
        simp only [Option.some.injEq] at h
        subst h; subst hik
        exact List.mem_cons_self _ _
      · rw [if_neg hik] at h
        exact List.mem_cons_of_mem _ (ih h)

/-- Writing a field then reading it back gives the written value. -/
theorem lookup_setField_self (d : Doc) (k : String) (v : JsValue) :
    (setField d k v).lookup k = some v := by
  induction d with
  | nil => simp [setField, lookup_cons]
  | cons e rest ih =>
    cases e with
    | mk k' v' =>
      rw [setField_cons]
      by_cases h : k' = k
      · rw [if_pos h, lookup_cons, if_pos rfl]
      · rw [if_neg h, lookup_cons, if_neg (fun he => h he.symm)]
        exact ih

/-- Writing one field leaves every other field's lookup unchanged. -/
theorem lookup_setField_ne (d : Doc) {k k' : String} (v : JsValue) (h : k' ≠ k) :
    (setField d k v).lookup k' = d.lookup k' := by
  induction d with
  | nil =>
    simp only [setField]
    rw [lookup_cons, if_neg h]
  | cons e rest ih =>
    cases e with
    | mk k0 v0 =>
      rw [setField_cons]
      by_cases h0 : k0 = k
      · rw [if_pos h0, lookup_cons, lookup_cons, if_neg h]
        rw [if_neg (fun he : k' = k0 => h (he.trans h0))]
      · rw [if_neg h0, lookup_cons, lookup_cons]
        by_cases hik : k' = k0
        · rw [if_pos hik, if_pos hik]
        · rw [if_neg hik, if_neg hik]
          exact ih

/-- Reading a written field. -/
theorem getField_setField_self (d : Doc) (k : String) (v : JsValue) :
    getField (setField d k v) k = v := by
  simp [getField, lookup_setField_self]

/-- Reading around a written field. -/
theorem getField_setField_ne (d : Doc) {k k' : String} (v : JsValue) (h : k' ≠ k) :
    getField (setField d k v) k' = getField d k' := by
  simp [getField, lookup_setField_ne d v h]

/-- Writing an already-present field does not change the key list. -/
theorem setField_keys_of_present (d : Doc) {k : String} {v0 : JsValue} (v : JsValue)
    (h : d.lookup k = some v0) : (setField d k v).map Prod.fst = d.map Prod.fst := by
  induction d with
  | nil => simp [List.lookup] at h
  | cons e rest ih =>
    cases e with
    | mk k0 v' =>
      rw [setField_cons]
      by_cases h0 : k0 = k
      · rw [if_pos h0, List.map_cons, List.map_cons, h0]
      · rw [lookup_cons, if_neg (fun he => h0 he.symm)] at h
        rw [if_neg h0, List.map_cons, List.map_cons, ih h]

/-- A `$set` of a map does not touch fields outside the map's keys. -/
theorem getField_mongoSet_not_mem (m : Doc) :
    ∀ (d : Doc) (k : String), k ∉ m.map Prod.fst →
      getField (mongoSet d m) k = getField d k := by
  induction m with
  | nil => intro d k _; rfl
  | cons e rest ih =>
    intro d k hk
    simp only [List.map_cons, List.mem_cons] at hk
    push_neg at hk
    have step : mongoSet d (e :: rest) = mongoSet (setField d e.1 e.2) rest := rfl
    rw [step, ih _ _ hk.2, getField_setField_ne _ _ hk.1]

/-- A `$set` of a map with distinct keys sets each named field to the
map's value for it. -/
theorem getField_mongoSet_lookup (m : Doc) :
    ∀ (d : Doc) (k : String) (v : JsValue), (m.map Prod.fst).Nodup →
      m.lookup k = some v → getField (mongoSet d m) k = v := by
  induction m with
  | nil => intro d k v _ h; simp [List.lookup] at h
  | cons e rest ih =>
    intro d k v hnd h
    cases e with
    | mk k0 v0 =>
      simp only [List.map_cons, List.nodup_cons] at hnd
      rw [lookup_cons] at h
      have step : mongoSet d ((k0, v0) :: rest) = mongoSet (setField d k0 v0) rest := rfl
      by_cases hik : k = k0
      · rw [if_pos hik] at h
        simp only [Option.some.injEq] at h
        subst h; subst hik
        rw [step, getField_mongoSet_not_mem rest _ _ hnd.1, getField_setField_self]
      · rw [if_neg hik] at h
        rw [step]
        exact ih _ _ _ hnd.2 h

/-- Rewriting the document stored under `i` and reading it back. -/
theorem lookup_updateDocAt_self {s : Store} {i : String} {d : Doc} (f : Doc → Doc)
    (h : s.lookup i = some d) :
    (updateDocAt s i f).lookup i = some (f d) := by
  induction s with
  | nil => simp [List.lookup] at h
  | cons e rest ih =>
    cases e with
    | mk k v =>
      rw [lookup_cons] at h
      rw [updateDocAt_cons]
      by_cases hik : i = k
      · rw [if_pos hik] at h
        simp only [Option.some.injEq] at h
        subst h; subst hik
        rw [if_pos rfl, lookup_cons, if_pos rfl]
      · rw [if_neg hik] at h
        rw [if_neg (fun he => hik he.symm), lookup_cons, if_neg hik]
        exact ih h

/-- Rewriting the document stored under `i` leaves other ids' lookups
unchanged. -/
theorem lookup_updateDocAt_ne (s : Store) (i j : String) (f : Doc → Doc) (h : j ≠ i) :
    (updateDocAt s i f).lookup j = s.lookup j := by
  induction s with
  | nil => rfl
  | cons e rest ih =>
    cases e with
    | mk k v =>
      rw [updateDocAt_cons]
      by_cases hk : k = i
      · rw [if_pos hk, lookup_cons, lookup_cons]
        rw [if_neg (fun he : j = k => h (he.trans hk)), if_neg (fun he : j = k => h (he.trans hk))]
        exact ih
      · rw [if_neg hk, lookup_cons, lookup_cons]
        by_cases hjk : j = k
        · rw [if_pos hjk, if_pos hjk]
        · rw [if_neg hjk, if_neg hjk]
          exact ih

/-- An update never adds, removes or renames documents. -/
theorem updateDocAt_keys (s : Store) (i : String) (f : Doc → Doc) :
    (updateDocAt s i f).map Prod.fst = s.map Prod.fst := by
  induction s with
  | nil => rfl
  | cons e rest ih =>
    cases e with
    | mk k v =>
      rw [updateDocAt_cons]
      by_cases hk : k = i
      · rw [if_pos hk, List.map_cons, List.map_cons, ih]
      · rw [if_neg hk, List.map_cons, List.map_cons, ih]

/-- Deleting an id that is not stored is a no-op. -/
theorem removeFirst_lookup_none {s : Store} {i : String} (h : s.lookup i = none) :
    removeFirst s i = s := by
  induction s with
  | nil => rfl
  | cons e rest ih =>
    cases e with
    | mk k v =>
      rw [lookup_cons] at h
      by_cases hik : i = k
      · rw [if_pos hik] at h; simp at h
      · rw [if_neg hik] at h
        rw [removeFirst_cons, if_neg (fun he => hik he.symm), ih h]

/-- After deletion under unique ids the id no longer resolves. -/
theorem lookup_removeFirst_self {s : Store} {i : String}
    (hnd : (s.map Prod.fst).Nodup) : (removeFirst s i).lookup i = none := by
  induction s with
  | nil => rfl
  | cons e rest ih =>
    cases e with
    | mk k v =>
      simp only [List.map_cons, List.nodup_cons] at hnd
      rw [removeFirst_cons]
      by_cases hk : k = i
      · rw [if_pos hk]
        cases hl : rest.lookup i with
        | none => rfl
        | some d =>
          have : (i, d) ∈ rest := lookup_mem hl
          have : i ∈ rest.map Prod.fst := List.mem_map_of_mem Prod.fst this
          rw [hk] at hnd
          exact absurd this hnd.1
      · rw [if_neg hk, lookup_cons, if_neg (fun he => hk he.symm)]
        exact ih hnd.2

/-- Stripping is idempotent, so an update behaves as if its body came
pre-stripped. -/
theorem stripBody_idem (b : Doc) : stripBody (stripBody b) = stripBody b := by
  induction b with
  | nil => rfl
  | cons e rest ih =>
    simp only [stripBody] at ih
    cases hp : keepField e with
    | true => simp [stripBody, List.filter_cons, hp, ih]
    | false => simp [stripBody, List.filter_cons, hp, ih]

/-- A value surviving the strip is neither `undefined` nor `null` nor
the empty string. -/
theorem lookup_stripBody_keep {b : Doc} {k : String} {v : JsValue}
    (h : (stripBody b).lookup k = some v) : keepField (k, v) = true := by
  have hm : (k, v) ∈ stripBody b := lookup_mem h
  rw [stripBody, List.mem_filter] at hm
  exact hm.2

/-- A present (non-`undefined`) field read resolves to a lookup. -/
theorem lookup_of_getField_ne_undef {m : Doc} {k : String}
    (h : isUndef (getField m k) = false) : m.lookup k = some (getField m k) := by
  rw [getField]
  cases hl : m.lookup k with
  | none =>
    rw [getField, hl] at h
    simp [isUndef] at h
  | some v => rfl

/-- The price step preserves the key list. -/
theorem coercePrice_keys {m m' : Doc} (h : AppJs.coercePrice m = Except.ok m') :
    m'.map Prod.fst = m.map Prod.fst := by
  rw [AppJs.coercePrice] at h
  by_cases hu : isUndef (getField m "price") = true
  · rw [if_pos hu] at h
    simp only [Except.ok.injEq] at h
    rw [← h]
  · have hu' : isUndef (getField m "price") = false := by
      cases h0 : isUndef (getField m "price")
      · rfl
      · exact absurd h0 hu
    rw [if_neg (by rw [hu']; exact Bool.false_ne_true)] at h
    cases hp : parseFloatV (getField m "price") with
    | none => rw [hp] at h; exact absurd h (by simp)
    | some p =>
      rw [hp] at h
      simp only [Except.ok.injEq] at h
      rw [← h]
      exact setField_keys_of_present m _ (lookup_of_getField_ne_undef hu')

/-- The stock step preserves the key list. -/
theorem coerceStock_keys {m m' : Doc} (h : AppJs.coerceStock m = Except.ok m') :
    m'.map Prod.fst = m.map Prod.fst := by
  rw [AppJs.coerceStock] at h
  by_cases hu : isUndef (getField m "stock") = true
  · rw [if_pos hu] at h
    simp only [Except.ok.injEq] at h
    rw [← h]
  · have hu' : isUndef (getField m "stock") = false := by
      cases h0 : isUndef (getField m "stock")
      · rfl
      · exact absurd h0 hu
    rw [if_neg (by rw [hu']; exact Bool.false_ne_true)] at h
    cases hp : parseIntV (getField m "stock") with
    | none => rw [hp] at h; exact absurd h (by simp)
    | some st =>
      rw [hp] at h
      simp only [Except.ok.injEq] at h
      rw [← h]
      exact setField_keys_of_present m _ (lookup_of_getField_ne_undef hu')

/-- The whole coercion preserves the key list of the stripped map. -/
theorem coerceUpdates_keys {m m' : Doc} (h : AppJs.coerceUpdates m = Except.ok m') :
    m'.map Prod.fst = m.map Prod.fst := by
  rw [AppJs.coerceUpdates] at h
  cases hp : AppJs.coercePrice m with
  | error e => rw [hp] at h; exact absurd h (by simp)
  | ok m1 =>
    rw [hp] at h
    exact (coerceStock_keys h).trans (coercePrice_keys hp)

/-- The price step does not change the `stock` entry. -/
theorem coercePrice_getField_stock {m m' : Doc} (h : AppJs.coercePrice m = Except.ok m') :
    getField m' "stock" = getField m "stock" := by
  rw [AppJs.coercePrice] at h
  by_cases hu : isUndef (getField m "price") = true
  · rw [if_pos hu] at h
    simp only [Except.ok.injEq] at h
    rw [← h]
  · have hu' : isUndef (getField m "price") = false := by
      cases h0 : isUndef (getField m "price")
      · rfl
      · exact absurd h0 hu
    rw [if_neg (by rw [hu']; exact Bool.false_ne_true)] at h
    cases hp : parseFloatV (getField m "price") with
    | none => rw [hp] at h; exact absurd h (by simp)
    | some p =>
      rw [hp] at h
      simp only [Except.ok.injEq] at h
      rw [← h]
      exact getField_setField_ne m _ (by decide)

/-- The allow-list loop propagates a failure of the remaining fields:
every branch either fails directly or passes the failure through. -/
theorem sanitizeLoop_cons_error (g : String) {rest : List String} {body : Doc} {e : String}
    (h : IndexJs.sanitizeLoop rest body = Except.error e) :
    ∃ e', IndexJs.sanitizeLoop (g :: rest) body = Except.error e' := by
  rw [IndexJs.sanitizeLoop]
  repeat' split
  all_goals first
    | exact ⟨e, h⟩
    | exact ⟨_, rfl⟩
    | (rw [h]; exact ⟨e, rfl⟩)

/-- The keys produced by the allow-list loop form a sublist of the
processed field names. -/
theorem sanitizeLoop_keys {fs : List String} {body : Doc} :
    ∀ {m : Doc}, IndexJs.sanitizeLoop fs body = Except.ok m →
      List.Sublist (m.map Prod.fst) fs := by
  induction fs with
  | nil =>
    intro m h
    rw [IndexJs.sanitizeLoop] at h
    simp only [Except.ok.injEq] at h
    rw [← h]
    exact List.nil_sublist _
  | cons f rest ih =>
    intro m h
    rw [IndexJs.sanitizeLoop] at h
    split at h
    · exact (ih h).cons f
    · split at h
      · split at h
        · exact absurd h (by simp)
        · split at h
          · exact absurd h (by simp)
          · cases hres : IndexJs.sanitizeLoop rest body with
            | error e => rw [hres] at h; exact absurd h (by simp [Except.map])
            | ok m0 =>
              rw [hres] at h
              simp only [Except.map, Except.ok.injEq] at h
              rw [← h, List.map_cons]
              exact (ih hres).cons₂ f
      · split at h
        · split at h
          · exact absurd h (by simp)
          · cases hres : IndexJs.sanitizeLoop rest body with
            | error e => rw [hres] at h; exact absurd h (by simp [Except.map])
            | ok m0 =>
              rw [hres] at h
              simp only [Except.map, Except.ok.injEq] at h
              rw [← h, List.map_cons]
              exact (ih hres).cons₂ f
        · exact (ih h).cons f

/-- A present `price`/`stock` body field whose `Number` conversion is
`NaN` or negative makes the allow-list loop fail. -/
theorem sanitizeLoop_error_bad_num {f : String} (hf : f = "price" ∨ f = "stock")
    {fs : List String} {body : Doc} (hmem : f ∈ fs)
    (hu : isUndef (getField body f) = false)
    (hbad : ∀ q, jsNumber (getField body f) = some q → q < 0) :
    ∃ e, IndexJs.sanitizeLoop fs body = Except.error e := by
  induction fs with
  | nil => exact absurd hmem (List.not_mem_nil f)
  | cons g rest ih =>
    by_cases hgf : g = f
    · subst hgf
      rw [IndexJs.sanitizeLoop]
      rw [if_neg (by rw [hu]; exact Bool.false_ne_true)]
      rw [if_pos hf]
      split
      · exact ⟨_, rfl⟩
      · rename_i q hn
        rw [if_pos (hbad q hn)]
        exact ⟨_, rfl⟩
    · have hmem' : f ∈ rest := by
        cases List.mem_cons.mp hmem with
        | inl he => exact absurd he.symm hgf
        | inr hr => exact hr
      obtain ⟨e, he⟩ := ih hmem'
      exact sanitizeLoop_cons_error g he

/-- Invariant of the data model: every stored document has a
natural-number `stock` field. -/
def stockInv (s : Store) : Prop :=
  ∀ e ∈ s, ∃ n : ℕ, getField e.2 "stock" = JsValue.num (n : ℚ)

/-- A store rewrite whose new documents all satisfy the stock invariant
preserves it. -/
theorem stockInv_updateDocAt {s : Store} {i : String} {f : Doc → Doc}
    (hinv : stockInv s)
    (hf : ∀ d, ∃ n : ℕ, getField (f d) "stock" = JsValue.num (n : ℚ)) :
    stockInv (updateDocAt s i f) := by
  intro e he
  rw [updateDocAt] at he
  obtain ⟨e0, he0, rfl⟩ := List.mem_map.mp he
  by_cases h : e0.1 = i
  · rw [if_pos h]
    exact hf e0.2
  · rw [if_neg h]
    exact hinv e0 he0

/-- On a positive natural stock the out-of-stock guard is off. -/
theorem jsLe0_succ (m : ℕ) : jsLe0 (JsValue.num ((m + 1 : ℕ) : ℚ)) = false := by
  simp only [jsLe0, jsNumber]
  rw [decide_eq_false]
  intro hc
  have hpos : (0 : ℚ) < ((m + 1 : ℕ) : ℚ) := by exact_mod_cast Nat.succ_pos m
  exact absurd hc (not_le.mpr hpos)

/-- On a zero stock the out-of-stock guard fires. -/
theorem jsLe0_zero : jsLe0 (JsValue.num ((0 : ℕ) : ℚ)) = true := by
  simp [jsLe0, jsNumber]

/-- The `part_000` / `api/app` sell handler keeps every stock a natural
number: a sale requires stock above 0 and decrements it by one. -/
theorem stockInv_sell_app (i : String) {s : Store} (hinv : stockInv s) :
    stockInv ((AppJs.sell i s).2) := by
  rw [AppJs.sell]
  cases hv : isValidObjectId i with
  | false => simpa using hinv
  | true =>
    simp only [Bool.not_true, Bool.false_eq_true, if_false]
    split
    · simpa using hinv
    · rename_i product hl
      obtain ⟨n, hn0⟩ := hinv (i, product) (lookup_mem hl)
      have hn : getField product "stock" = JsValue.num (n : ℚ) := hn0
      cases n with
      | zero =>
        rw [hn, jsLe0_zero]
        simpa using hinv
      | succ m =>
        rw [hn, jsLe0_succ m]
        simp only [Bool.false_eq_true, if_false]
        apply stockInv_updateDocAt hinv
        intro d
        refine ⟨m, ?_⟩
        rw [getField_setField_self]
        congr 1
        push_cast
        ring

/-- Both outcomes of the `modifiedCount` test of the standalone sell
handler carry the same store, so the stock invariant only depends on
that store. -/
theorem stockInv_ite_snd {b : Prop} [Decidable b] {r1 r2 : Resp} {st : Store}
    (h : stockInv st) : stockInv ((if b then (r1, st) else (r2, st)).2) := by
  by_cases hb : b
  · rw [if_pos hb]; exact h
  · rw [if_neg hb]; exact h

/-- The standalone `src/index.js` sell handler keeps every stock a
natural number. -/
theorem stockInv_sell_index (i : String) (now : ℕ) {s : Store} (hinv : stockInv s) :
    stockInv ((IndexJs.sell i now s).2) := by
  rw [IndexJs.sell]
  cases hv : isValidObjectId i with
  | false => simpa using hinv
  | true =>
    simp only [Bool.not_true, Bool.false_eq_true, if_false]
    split
    · simpa using hinv
    · rename_i product hl
      obtain ⟨n, hn0⟩ := hinv (i, product) (lookup_mem hl)
      have hn : getField product "stock" = JsValue.num (n : ℚ) := hn0
      cases n with
      | zero =>
        rw [hn, jsLe0_zero]
        simpa using hinv
      | succ m =>
        rw [hn, jsLe0_succ m]
        simp only [Bool.false_eq_true, if_false]
        apply stockInv_ite_snd
        apply stockInv_updateDocAt hinv
        intro d
        refine ⟨m, ?_⟩
        rw [getField_setField_ne _ _ (by decide : "stock" ≠ "lastSold")]
        rw [getField_setField_self]
        congr 1
        push_cast
        ring

/-- A well-formed 24-hex-character ObjectId used as concrete store key
in witnesses and counterexamples. -/
def oid1 : String := "aaaaaaaaaaaaaaaaaaaaaaaa"

/-- C1: for every stored product whose current stock is `<= 0`, the sell
operation (in both handler variants) returns 400 "out of stock", the
check reading the pre-decrement stock of the stored document, and leaves
the store unchanged; consequently no sequence of sell operations takes a
natural-number stock below 0 (the store keeps satisfying `stockInv`). -/
theorem sell_out_of_stock_guard_and_floor :
    (∀ (s : Store) (i : String) (product : Doc),
        isValidObjectId i = true → s.lookup i = some product →
        jsLe0 (getField product "stock") = true →
        AppJs.sell i s = (Resp.bad "Out of stock", s)) ∧
    (∀ (s : Store) (i : String) (product : Doc) (now : ℕ),
        isValidObjectId i = true → s.lookup i = some product →
        jsLe0 (getField product "stock") = true →
        IndexJs.sell i now s = (Resp.bad "Product is out of stock", s)) ∧
    (∀ (s : Store) (ids : List String), stockInv s →
        stockInv (ids.foldl (fun st j => (AppJs.sell j st).2) s)) ∧
    (∀ (s : Store) (ids : List String) (now : ℕ), stockInv s →
        stockInv (ids.foldl (fun st j => (IndexJs.sell j now st).2) s)) := by
  refine ⟨?_, ?_, ?_, ?_⟩
  · intro s i product hv hl hle
    simp only [AppJs.sell, hv, Bool.not_true, Bool.false_eq_true, if_false, hl, hle, if_true]
  · intro s i product now hv hl hle
    simp only [IndexJs.sell, hv, Bool.not_true, Bool.false_eq_true, if_false, hl, hle, if_true]
  · intro s ids hinv
    induction ids generalizing s with
    | nil => exact hinv
    | cons j rest ih => exact ih _ (stockInv_sell_app j hinv)
  · intro s ids now hinv
    induction ids generalizing s with
    | nil => exact hinv
    | cons j rest ih => exact ih _ (stockInv_sell_index j now hinv)

/-- Witness for C1: a stored stock of 0 is rejected by both sell
variants with the store untouched, and a store with stock 2 keeps a
natural-number stock through a sequence of sells. -/
theorem sell_out_of_stock_guard_and_floor_witness :
    AppJs.sell oid1 [(oid1, [("stock", JsValue.num 0)])] =
      (Resp.bad "Out of stock", [(oid1, [("stock", JsValue.num 0)])]) ∧
    IndexJs.sell oid1 5 [(oid1, [("stock", JsValue.num 0)])] =
      (Resp.bad "Product is out of stock", [(oid1, [("stock", JsValue.num 0)])]) ∧
    stockInv ([oid1, oid1].foldl (fun st j => (AppJs.sell j st).2)
      [(oid1, [("stock", JsValue.num 2)])]) ∧
    stockInv ([oid1, oid1].foldl (fun st j => (IndexJs.sell j 5 st).2)
      [(oid1, [("stock", JsValue.num 2)])]) := by
  refine ⟨sell_out_of_stock_guard_and_floor.1 [(oid1, [("stock", JsValue.num 0)])] oid1
      [("stock", JsValue.num 0)] (by decide) (by decide) (by decide),
    sell_out_of_stock_guard_and_floor.2.1 [(oid1, [("stock", JsValue.num 0)])] oid1
      [("stock", JsValue.num 0)] 5 (by decide) (by decide) (by decide),
    sell_out_of_stock_guard_and_floor.2.2.1 _ [oid1, oid1] ?_,
    sell_out_of_stock_guard_and_floor.2.2.2 _ [oid1, oid1] 5 ?_⟩
  all_goals
    intro e he
    rw [List.mem_singleton] at he
    subst he
    exact ⟨2, by decide⟩

/-- Counterexample for C2: the `part_000` / `api/app` sell handler
returns 200 and decrements the stock but never stamps `lastSold` — the
resulting document has no `lastSold` field at all. -/
theorem sell_lastSold_not_stamped_cex :
    (AppJs.sell oid1 [(oid1, [("stock", JsValue.num 2)])]).1.status = 200 ∧
    (AppJs.sell oid1 [(oid1, [("stock", JsValue.num 2)])]).2 =
      [(oid1, [("stock", JsValue.num 1)])] ∧
    getField [("stock", JsValue.num 1)] "lastSold" = JsValue.undef := by
  have hv : isValidObjectId oid1 = true := by decide
  have hl : List.lookup oid1 [(oid1, [("stock", JsValue.num 2)])] =
      some [("stock", JsValue.num 2)] := by decide
  have hg : getField [("stock", JsValue.num 2)] "stock" = JsValue.num 2 := by decide
  have h2 : jsLe0 (JsValue.num 2) = false := by decide
  have hsell : AppJs.sell oid1 [(oid1, [("stock", JsValue.num 2)])] =
      (⟨200, "Product sold successfully", none, some 1, none⟩,
        updateDocAt [(oid1, [("stock", JsValue.num 2)])] oid1
          (fun _ => setField [("stock", JsValue.num 2)] "stock" (JsValue.num (2 - 1)))) := by
    simp only [AppJs.sell, hv, Bool.not_true, Bool.false_eq_true, if_false, hl, h2, hg]
  rw [hsell]
  refine ⟨rfl, ?_, by decide⟩
  rw [updateDocAt_cons, if_pos rfl]
  norm_num [setField, updateDocAt]

/-- C2 (amended): on a well-formed id of a stored product with numeric
stock above 0, both sell variants return 200 and decrement the stock by
exactly 1; the standalone `src/index.js` variant additionally stamps
`lastSold`, while the `part_000` / `api/app` variant leaves `lastSold`
untouched. -/
theorem sell_success_decrement :
    (∀ (s : Store) (i : String) (product : Doc) (now : ℕ) (q : ℚ),
        isValidObjectId i = true → s.lookup i = some product →
        getField product "stock" = JsValue.num q → ¬ q ≤ 0 →
        ∃ d', (IndexJs.sell i now s).1.status = 200 ∧
          (IndexJs.sell i now s).2.lookup i = some d' ∧
          getField d' "stock" = JsValue.num (q - 1) ∧
          getField d' "lastSold" = JsValue.date now) ∧
    (∀ (s : Store) (i : String) (product : Doc) (q : ℚ),
        isValidObjectId i = true → s.lookup i = some product →
        getField product "stock" = JsValue.num q → ¬ q ≤ 0 →
        ∃ d', (AppJs.sell i s).1.status = 200 ∧
          (AppJs.sell i s).2.lookup i = some d' ∧
          getField d' "stock" = JsValue.num (q - 1) ∧
          getField d' "lastSold" = getField product "lastSold") := by
  constructor
  · intro s i product now q hv hl hn hq
    have hle : jsLe0 (JsValue.num q) = false := by
      simp only [jsLe0, jsNumber]
      exact decide_eq_false hq
    have hne : setField (setField product "stock" (JsValue.num (q - 1)))
        "lastSold" (JsValue.date now) ≠ product := by
      intro he
      have h1 : getField (setField (setField product "stock" (JsValue.num (q - 1)))
          "lastSold" (JsValue.date now)) "stock" = JsValue.num (q - 1) := by
        rw [getField_setField_ne _ _ (by decide : "stock" ≠ "lastSold"), getField_setField_self]
      rw [he, hn] at h1
      simp only [JsValue.num.injEq] at h1
      linarith
    have hsell : IndexJs.sell i now s =
        (⟨200, "Product sold successfully", none, some 1, none⟩,
          updateDocAt s i (fun _ => setField (setField product "stock" (JsValue.num (q - 1)))
            "lastSold" (JsValue.date now))) := by
      simp only [IndexJs.sell, hv, Bool.not_true, Bool.false_eq_true, if_false, hl, hn, hle]
      rw [if_neg hne]
    refine ⟨setField (setField product "stock" (JsValue.num (q - 1))) "lastSold"
      (JsValue.date now), by rw [hsell], ?_, ?_, ?_⟩
    · rw [hsell]
      exact lookup_updateDocAt_self
        (fun _ => setField (setField product "stock" (JsValue.num (q - 1)))
          "lastSold" (JsValue.date now)) hl
    · rw [getField_setField_ne _ _ (by decide : "stock" ≠ "lastSold"), getField_setField_self]
    · rw [getField_setField_self]
  · intro s i product q hv hl hn hq
    have hle : jsLe0 (JsValue.num q) = false := by
      simp only [jsLe0, jsNumber]
      exact decide_eq_false hq
    have hsell : AppJs.sell i s =
        (⟨200, "Product sold successfully", none, some 1, none⟩,
          updateDocAt s i (fun _ => setField product "stock" (JsValue.num (q - 1)))) := by
      simp only [AppJs.sell, hv, Bool.not_true, Bool.false_eq_true, if_false, hl, hn, hle]
    refine ⟨setField product "stock" (JsValue.num (q - 1)), by rw [hsell], ?_, ?_, ?_⟩
    · rw [hsell]
      exact lookup_updateDocAt_self
        (fun _ => setField product "stock" (JsValue.num (q - 1))) hl
    · rw [getField_setField_self]
    · exact getField_setField_ne _ _ (by decide : "lastSold" ≠ "stock")

/-- Witness for C2 (amended): concrete sale of a product with stock 2
in both variants. -/
theorem sell_success_decrement_witness :
    (∃ d', (IndexJs.sell oid1 7 [(oid1, [("stock", JsValue.num 2)])]).1.status = 200 ∧
      (IndexJs.sell oid1 7 [(oid1, [("stock", JsValue.num 2)])]).2.lookup oid1 = some d' ∧
      getField d' "stock" = JsValue.num ((2 : ℚ) - 1) ∧
      getField d' "lastSold" = JsValue.date 7) ∧
    (∃ d', (AppJs.sell oid1 [(oid1, [("stock", JsValue.num 2)])]).1.status = 200 ∧
      (AppJs.sell oid1 [(oid1, [("stock", JsValue.num 2)])]).2.lookup oid1 = some d' ∧
      getField d' "stock" = JsValue.num ((2 : ℚ) - 1) ∧
      getField d' "lastSold" = getField [("stock", JsValue.num 2)] "lastSold") :=
  ⟨sell_success_decrement.1 [(oid1, [("stock", JsValue.num 2)])] oid1 [("stock", JsValue.num 2)]
      7 2 (by decide) (by decide) (by decide) (by norm_num),
   sell_success_decrement.2 [(oid1, [("stock", JsValue.num 2)])] oid1 [("stock", JsValue.num 2)]
      2 (by decide) (by decide) (by decide) (by norm_num)⟩

/-- Counterexample for C3: a creation payload with a name-like field
present, `price` present (equal to 0) and `stock` equal to 0 is
rejected with the missing-required-fields 400, because the `price`
presence check is a falsiness test. -/
theorem create_zero_price_payload_rejected_cex :
    (AppJs.create [("name", JsValue.str "Widget"), ("price", JsValue.num 0),
        ("stock", JsValue.num 0)] [] "p1").1.status = 400 ∧
    (AppJs.create [("name", JsValue.str "Widget"), ("price", JsValue.num 0),
        ("stock", JsValue.num 0)] [] "p1").1.message =
      "Missing required fields: name or model, price, and stock are required" ∧
    (AppJs.create [("name", JsValue.str "Widget"), ("price", JsValue.num 0),
        ("stock", JsValue.num 0)] [] "p1").2 = [] := by
  refine ⟨by decide, by decide, by decide⟩

/-- C3 (amended): for every creation payload with a truthy name-like
field, a truthy `price` whose `parseFloat` is a number, and `stock`
equal to the number 0, the required-field check does not fire — the
stock presence test is `=== undefined`, not falsiness — and the creation
succeeds with 201, storing the document with numeric stock 0. -/
theorem create_zero_stock_accepted :
    ∀ (body : Doc) (s : Store) (newId : String) (p : ℚ),
      (jsFalsy (getField body "name") = false ∨ jsFalsy (getField body "model") = false) →
      jsFalsy (getField body "price") = false →
      getField body "stock" = JsValue.num 0 →
      parseFloatV (getField body "price") = some p →
      (AppJs.create body s newId).1.status = 201 ∧
      ∃ d, (AppJs.create body s newId).2 = s ++ [(newId, d)] ∧
        getField d "stock" = JsValue.num 0 := by
  intro body s newId p hnm hp hs hpf
  have hreq : AppJs.requiredMissing body = false := by
    rw [AppJs.requiredMissing, hp, hs]
    cases hnm with
    | inl h => rw [h]; simp [isUndef]
    | inr h => rw [h]; simp [isUndef]
  have hpi : parseIntV (getField body "stock") = some 0 := by
    rw [hs]
    decide
  have hc : AppJs.create body s newId =
      (⟨201, "Product added successfully", none, none,
          some (setField (setField body "price" (JsValue.num p)) "stock"
            (JsValue.num ((0 : ℤ) : ℚ)))⟩,
        s ++ [(newId, setField (setField body "price" (JsValue.num p)) "stock"
          (JsValue.num ((0 : ℤ) : ℚ)))]) := by
    simp only [AppJs.create, hreq, Bool.false_eq_true, if_false, hpf, hpi]
  refine ⟨by rw [hc], setField (setField body "price" (JsValue.num p)) "stock"
    (JsValue.num ((0 : ℤ) : ℚ)), by rw [hc], ?_⟩
  rw [getField_setField_self]
  norm_num

/-- Witness for C3 (amended): creating with stock 0 and price 5
succeeds. -/
theorem create_zero_stock_accepted_witness :
    (AppJs.create [("name", JsValue.str "x"), ("price", JsValue.num 5),
        ("stock", JsValue.num 0)] [] "p1").1.status = 201 ∧
    ∃ d, (AppJs.create [("name", JsValue.str "x"), ("price", JsValue.num 5),
        ("stock", JsValue.num 0)] [] "p1").2 = [] ++ [("p1", d)] ∧
      getField d "stock" = JsValue.num 0 :=
  create_zero_stock_accepted [("name", JsValue.str "x"), ("price", JsValue.num 5),
    ("stock", JsValue.num 0)] [] "p1" 5 (Or.inl (by decide)) (by decide) (by decide) (by decide)

/-- Evaluation of `parseFloat` on the spec's example price string. -/
theorem parseFloat_example_price : parseFloatOfString "199.99" = some (19999 / 100 : ℚ) := by
  have h : parseFloatOfString "199.99" =
      some ((digitsVal ['1', '9', '9'] : ℚ) +
        (digitsVal ['9', '9'] : ℚ) / (10 : ℚ) ^ (2 : ℕ)) := rfl
  have h1 : digitsVal ['1', '9', '9'] = 199 := rfl
  have h2 : digitsVal ['9', '9'] = 99 := rfl
  rw [h, h1, h2]
  norm_num

/-- Evaluation of `Number` on the spec's example price string. -/
theorem numberOf_example_price : numberOfString "199.99" = some (19999 / 100 : ℚ) := by
  have h : numberOfString "199.99" =
      some ((digitsVal ['1', '9', '9'] : ℚ) +
        (digitsVal ['9', '9'] : ℚ) / (10 : ℚ) ^ (2 : ℕ)) := rfl
  have h1 : digitsVal ['1', '9', '9'] = 199 := rfl
  have h2 : digitsVal ['9', '9'] = 99 := rfl
  rw [h, h1, h2]
  norm_num

/-- The spec's example creation payload. -/
def exampleBody : Doc :=
  [("category", JsValue.str "phone"), ("model", JsValue.str "X1"),
   ("price", JsValue.str "199.99"), ("stock", JsValue.str "5")]

/-- Counterexample for C4: the standalone `src/index.js` create handler
never returns 400 on a not-a-number coercion — `Number('abc') || 0`
silently defaults the price to 0 and the request succeeds with 201. -/
theorem create_nan_price_defaults_cex :
    (IndexJs.create [("category", JsValue.str "phone"), ("model", JsValue.str "X1"),
        ("price", JsValue.str "abc"), ("stock", JsValue.str "5")] 0 [] "p1").1.status = 201 ∧
    (IndexJs.create [("category", JsValue.str "phone"), ("model", JsValue.str "X1"),
        ("price", JsValue.str "abc"), ("stock", JsValue.str "5")] 0 [] "p1").2 =
      [("p1", [("category", JsValue.str "phone"), ("model", JsValue.str "X1"),
        ("price", JsValue.num 0), ("stock", JsValue.num 5), ("createdAt", JsValue.date 0)])] := by
  refine ⟨by decide, by decide⟩

/-- C4 (amended): the `part_000` / `api/app` create handler coerces
`price` with `parseFloat` and `stock` with `parseInt` and returns 400
when either coercion is `NaN`; the example payload with price "199.99"
and stock "5" yields 201 in both variants with numeric price `199.99`
and numeric stock `5` stored.  (The standalone `src/index.js` handler
instead defaults failed coercions to 0 — see the counterexample.) -/
theorem create_numeric_coercion :
    (∀ (body : Doc) (s : Store) (newId : String),
        AppJs.requiredMissing body = false →
        parseFloatV (getField body "price") = none →
        AppJs.create body s newId = (Resp.bad "Price and stock must be valid numbers", s)) ∧
    (∀ (body : Doc) (s : Store) (newId : String) (p : ℚ),
        AppJs.requiredMissing body = false →
        parseFloatV (getField body "price") = some p →
        parseIntV (getField body "stock") = none →
        AppJs.create body s newId = (Resp.bad "Price and stock must be valid numbers", s)) ∧
    ((AppJs.create exampleBody [] "p1").1.status = 201 ∧
      ∃ d, (AppJs.create exampleBody [] "p1").2 = [("p1", d)] ∧
        getField d "price" = JsValue.num (19999 / 100) ∧
        getField d "stock" = JsValue.num 5) ∧
    ((IndexJs.create exampleBody 0 [] "p1").1.status = 201 ∧
      ∃ d, (IndexJs.create exampleBody 0 [] "p1").2 = [("p1", d)] ∧
        getField d "price" = JsValue.num (19999 / 100) ∧
        getField d "stock" = JsValue.num 5) := by
  refine ⟨?_, ?_, ?_, ?_⟩
  · intro body s newId hreq hpf
    simp only [AppJs.create, hreq, Bool.false_eq_true, if_false, hpf]
  · intro body s newId p hreq hpf hpi
    simp only [AppJs.create, hreq, Bool.false_eq_true, if_false, hpf, hpi]
  · have hreq : AppJs.requiredMissing exampleBody = false := by decide
    have hg : getField exampleBody "price" = JsValue.str "199.99" := by decide
    have hpf : parseFloatV (getField exampleBody "price") = some (19999 / 100 : ℚ) := by
      rw [hg]
      show parseFloatOfString "199.99" = some (19999 / 100 : ℚ)
      exact parseFloat_example_price
    have hpi : parseIntV (getField exampleBody "stock") = some 5 := by decide
    have hc : AppJs.create exampleBody [] "p1" =
        (⟨201, "Product added successfully", none, none,
            some (setField (setField exampleBody "price" (JsValue.num (19999 / 100))) "stock"
              (JsValue.num ((5 : ℤ) : ℚ)))⟩,
          [("p1", setField (setField exampleBody "price" (JsValue.num (19999 / 100))) "stock"
            (JsValue.num ((5 : ℤ) : ℚ)))]) := by
      simp only [AppJs.create, hreq, Bool.false_eq_true, if_false, hpf, hpi, List.nil_append]
    refine ⟨by rw [hc], setField (setField exampleBody "price" (JsValue.num (19999 / 100)))
      "stock" (JsValue.num ((5 : ℤ) : ℚ)), by rw [hc], ?_, ?_⟩
    · rw [getField_setField_ne _ _ (by decide : "price" ≠ "stock"), getField_setField_self]
    · rw [getField_setField_self]
      congr 1
  · have hfb : (jsFalsy (JsValue.str "phone") || jsFalsy (JsValue.str "X1")) = false := by decide
    have hfc : jsFalsy (getField exampleBody "category") = false := by decide
    have hfm : jsFalsy (getField exampleBody "model") = false := by decide
    have hp0 : jsNumberOr0 (getField exampleBody "price") = 19999 / 100 := by
      have hg : getField exampleBody "price" = JsValue.str "199.99" := by decide
      rw [hg]
      simp only [jsNumberOr0, jsNumber, numberOf_example_price]
      rw [if_neg (by norm_num : ¬ (19999 / 100 : ℚ) = 0)]
    have hs0 : jsNumberOr0 (getField exampleBody "stock") = 5 := by
      have hg : getField exampleBody "stock" = JsValue.str "5" := by decide
      have h5 : numberOfString "5" = some 5 := by decide
      rw [hg]
      simp only [jsNumberOr0, jsNumber, h5]
      rw [if_neg (by norm_num : ¬ (5 : ℚ) = 0)]
    have hgc : getField exampleBody "category" = JsValue.str "phone" := by decide
    have hgm : getField exampleBody "model" = JsValue.str "X1" := by decide
    have hc : IndexJs.create exampleBody 0 [] "p1" =
        (⟨201, "Product added successfully", none, none,
            some [("category", JsValue.str "phone"), ("model", JsValue.str "X1"),
              ("price", JsValue.num (19999 / 100)), ("stock", JsValue.num 5),
              ("createdAt", JsValue.date 0)]⟩,
          [("p1", [("category", JsValue.str "phone"), ("model", JsValue.str "X1"),
            ("price", JsValue.num (19999 / 100)), ("stock", JsValue.num 5),
            ("createdAt", JsValue.date 0)])]) := by
      simp only [IndexJs.create, hfc, hfm, hfb, Bool.or_self, Bool.false_eq_true, if_false,
        hp0, hs0, hgc, hgm, List.nil_append]
    refine ⟨by rw [hc], [("category", JsValue.str "phone"), ("model", JsValue.str "X1"),
      ("price", JsValue.num (19999 / 100)), ("stock", JsValue.num 5),
      ("createdAt", JsValue.date 0)], by rw [hc], by rfl, by rfl⟩

/-- Witness for C4 (amended): a payload with an unparsable price string
is rejected by the `part_000` / `api/app` create handler. -/
theorem create_numeric_coercion_witness :
    AppJs.create [("name", JsValue.str "n"), ("price", JsValue.str "abc"),
        ("stock", JsValue.num 3)] [] "p1" =
      (Resp.bad "Price and stock must be valid numbers", []) ∧
    AppJs.create [("name", JsValue.str "n"), ("price", JsValue.num 2),
        ("stock", JsValue.str "xyz")] [] "p1" =
      (Resp.bad "Price and stock must be valid numbers", []) :=
  ⟨create_numeric_coercion.1 [("name", JsValue.str "n"), ("price", JsValue.str "abc"),
      ("stock", JsValue.num 3)] [] "p1" (by decide) (by decide),
   create_numeric_coercion.2.1 [("name", JsValue.str "n"), ("price", JsValue.num 2),
      ("stock", JsValue.str "xyz")] [] "p1" 2 (by decide) (by decide) (by decide)⟩

/-- A kept field's value is not `undefined`. -/
theorem keepField_not_undef {k : String} {v : JsValue} (h : keepField (k, v) = true) :
    isUndef v = false := by
  rw [keepField] at h
  cases hu : isUndef v with
  | false => rfl
  | true => rw [hu] at h; simp at h

/-- Counterexample for C5: the `part_000` / `api/app` update handler
accepts a negative price — the request succeeds with 200 and the stored
price becomes `-5`, where the claim requires a 400 with the document
unchanged. -/
theorem update_negative_price_accepted_cex :
    (AppJs.update oid1 [("price", JsValue.num (-5))]
      [(oid1, [("price", JsValue.num 10)])]).1.status = 200 ∧
    (AppJs.update oid1 [("price", JsValue.num (-5))]
      [(oid1, [("price", JsValue.num 10)])]).2 =
      [(oid1, [("price", JsValue.num (-5))])] := by
  refine ⟨by decide, by decide⟩

/-- C5 (amended): the standalone `src/index.js` update handler (on an
existing well-formed id) rejects a present `price` or `stock` whose
`Number` conversion is `NaN` or negative with 400, leaving the store
unchanged; the `part_000` / `api/app` handler rejects only a `NaN`
`parseFloat`/`parseInt` of a kept `price`/`stock` entry (a negative
value passes — see the counterexample). -/
theorem update_numeric_rejection :
    (∀ (s : Store) (i : String) (d : Doc) (body : Doc) (now : ℕ),
        isValidObjectId i = true → s.lookup i = some d →
        isUndef (getField body "price") = false →
        (∀ q, jsNumber (getField body "price") = some q → q < 0) →
        (IndexJs.update i body now s).1.status = 400 ∧
        (IndexJs.update i body now s).2 = s) ∧
    (∀ (s : Store) (i : String) (d : Doc) (body : Doc) (now : ℕ),
        isValidObjectId i = true → s.lookup i = some d →
        isUndef (getField body "stock") = false →
        (∀ q, jsNumber (getField body "stock") = some q → q < 0) →
        (IndexJs.update i body now s).1.status = 400 ∧
        (IndexJs.update i body now s).2 = s) ∧
    (∀ (i : String) (body : Doc) (s : Store) (v : JsValue),
        (stripBody body).lookup "price" = some v →
        parseFloatV v = none →
        (AppJs.update i body s).1.status = 400 ∧
        (AppJs.update i body s).2 = s) ∧
    (∀ (i : String) (body : Doc) (s : Store) (v : JsValue),
        (stripBody body).lookup "stock" = some v →
        parseIntV v = none →
        (AppJs.update i body s).1.status = 400 ∧
        (AppJs.update i body s).2 = s) := by
  refine ⟨?_, ?_, ?_, ?_⟩
  · intro s i d body now hv hl hu hbad
    obtain ⟨e, he⟩ := sanitizeLoop_error_bad_num (Or.inl rfl)
      (by decide : "price" ∈ IndexJs.allowedFields) hu hbad
    simp only [IndexJs.update, hv, Bool.not_true, Bool.false_eq_true, if_false, hl, he]
    constructor <;> trivial
  · intro s i d body now hv hl hu hbad
    obtain ⟨e, he⟩ := sanitizeLoop_error_bad_num (Or.inr rfl)
      (by decide : "stock" ∈ IndexJs.allowedFields) hu hbad
    simp only [IndexJs.update, hv, Bool.not_true, Bool.false_eq_true, if_false, hl, he]
    constructor <;> trivial
  · intro i body s v hsv hpf
    cases hv : isValidObjectId i with
    | false =>
      simp only [AppJs.update, hv, Bool.not_false, if_true]
      constructor <;> trivial
    | true =>
      have hne : (stripBody body).isEmpty = false := by
        cases hsb : stripBody body with
        | nil => rw [hsb] at hsv; exact absurd hsv (by simp [List.lookup])
        | cons e rest => rfl
      have hgp : getField (stripBody body) "price" = v := by
        rw [getField, hsv]
        rfl
      have hup : isUndef (getField (stripBody body) "price") = false := by
        rw [hgp]
        exact keepField_not_undef (lookup_stripBody_keep hsv)
      have hcp : AppJs.coercePrice (stripBody body) =
          Except.error "Price must be a valid number" := by
        rw [AppJs.coercePrice, if_neg (by rw [hup]; exact Bool.false_ne_true), hgp, hpf]
      have hcu : AppJs.coerceUpdates (stripBody body) =
          Except.error "Price must be a valid number" := by
        rw [AppJs.coerceUpdates, hcp]
      simp only [AppJs.update, hv, Bool.not_true, Bool.false_eq_true, if_false, hne, hcu]
      constructor <;> trivial
  · intro i body s v hsv hpi
    cases hv : isValidObjectId i with
    | false =>
      simp only [AppJs.update, hv, Bool.not_false, if_true]
      constructor <;> trivial
    | true =>
      have hne : (stripBody body).isEmpty = false := by
        cases hsb : stripBody body with
        | nil => rw [hsb] at hsv; exact absurd hsv (by simp [List.lookup])
        | cons e rest => rfl
      have hgs : getField (stripBody body) "stock" = v := by
        rw [getField, hsv]
        rfl
      have hus : isUndef (getField (stripBody body) "stock") = false := by
        rw [hgs]
        exact keepField_not_undef (lookup_stripBody_keep hsv)
      have hcu : ∃ msg, AppJs.coerceUpdates (stripBody body) = Except.error msg := by
        rw [AppJs.coerceUpdates]
        split
        · rename_i e hcp
          exact ⟨e, rfl⟩
        · rename_i m1 hcp
          have hgs1 : getField m1 "stock" = v := by
            rw [coercePrice_getField_stock hcp, hgs]
          refine ⟨"Stock must be a valid number", ?_⟩
          rw [AppJs.coerceStock, if_neg (by
            rw [hgs1, keepField_not_undef (lookup_stripBody_keep hsv)]
            exact Bool.false_ne_true), hgs1, hpi]
      obtain ⟨msg, hcu⟩ := hcu
      simp only [AppJs.update, hv, Bool.not_true, Bool.false_eq_true, if_false, hne, hcu]
      constructor <;> trivial

/-- Witness for C5 (amended): a negative price and a negative stock are
rejected by the standalone update handler, and unparsable price/stock
strings are rejected by the `part_000` / `api/app` update handler. -/
theorem update_numeric_rejection_witness :
    ((IndexJs.update oid1 [("price", JsValue.num (-3))] 5
        [(oid1, [("price", JsValue.num 10)])]).1.status = 400 ∧
      (IndexJs.update oid1 [("price", JsValue.num (-3))] 5
        [(oid1, [("price", JsValue.num 10)])]).2 = [(oid1, [("price", JsValue.num 10)])]) ∧
    ((IndexJs.update oid1 [("stock", JsValue.num (-2))] 5
        [(oid1, [("price", JsValue.num 10)])]).1.status = 400 ∧
      (IndexJs.update oid1 [("stock", JsValue.num (-2))] 5
        [(oid1, [("price", JsValue.num 10)])]).2 = [(oid1, [("price", JsValue.num 10)])]) ∧
    ((AppJs.update oid1 [("price", JsValue.str "abc")]
        [(oid1, [("price", JsValue.num 10)])]).1.status = 400 ∧
      (AppJs.update oid1 [("price", JsValue.str "abc")]
        [(oid1, [("price", JsValue.num 10)])]).2 = [(oid1, [("price", JsValue.num 10)])]) ∧
    ((AppJs.update oid1 [("stock", JsValue.str "zz")]
        [(oid1, [("price", JsValue.num 10)])]).1.status = 400 ∧
      (AppJs.update oid1 [("stock", JsValue.str "zz")]
        [(oid1, [("price", JsValue.num 10)])]).2 = [(oid1, [("price", JsValue.num 10)])]) := by
  refine ⟨update_numeric_rejection.1 [(oid1, [("price", JsValue.num 10)])] oid1
      [("price", JsValue.num 10)] [("price", JsValue.num (-3))] 5
      (by decide) (by decide) (by decide) ?_,
    update_numeric_rejection.2.1 [(oid1, [("price", JsValue.num 10)])] oid1
      [("price", JsValue.num 10)] [("stock", JsValue.num (-2))] 5
      (by decide) (by decide) (by decide) ?_,
    update_numeric_rejection.2.2.1 oid1 [("price", JsValue.str "abc")]
      [(oid1, [("price", JsValue.num 10)])] (JsValue.str "abc") (by decide) (by decide),
    update_numeric_rejection.2.2.2 oid1 [("stock", JsValue.str "zz")]
      [(oid1, [("price", JsValue.num 10)])] (JsValue.str "zz") (by decide) (by decide)⟩
  · intro q hq
    have h3 : jsNumber (getField [("price", JsValue.num (-3))] "price") = some (-3) := by decide
    rw [h3, Option.some.injEq] at hq
    rw [← hq]
    norm_num
  · intro q hq
    have h3 : jsNumber (getField [("stock", JsValue.num (-2))] "stock") = some (-2) := by decide
    rw [h3, Option.some.injEq] at hq
    rw [← hq]
    norm_num

/-- C6: the `part_000` / `api/app` update handler strips `undefined`,
`null` and empty-string fields before applying anything — updating with
a body behaves exactly like updating with its stripped body — and when
the stripped map is empty the handler returns 400 "No valid fields to
update" leaving the store unchanged. -/
theorem update_strip_and_empty_rejected :
    (∀ (i : String) (body : Doc) (s : Store),
        isValidObjectId i = true → stripBody body = [] →
        AppJs.update i body s = (Resp.bad "No valid fields to update", s)) ∧
    (∀ (i : String) (body : Doc) (s : Store),
        AppJs.update i body s = AppJs.update i (stripBody body) s) := by
  constructor
  · intro i body s hv hsb
    simp only [AppJs.update, hv, Bool.not_true, Bool.false_eq_true, if_false, hsb,
      List.isEmpty_nil, if_true]
  · intro i body s
    simp only [AppJs.update, stripBody_idem]

/-- Witness for C6: a body of only `null` and empty-string fields is
rejected with 400 and the store is untouched, and a mixed body is
processed exactly as its stripped form. -/
theorem update_strip_and_empty_rejected_witness :
    AppJs.update oid1 [("price", JsValue.null), ("model", JsValue.str "")]
        [(oid1, [("price", JsValue.num 10)])] =
      (Resp.bad "No valid fields to update", [(oid1, [("price", JsValue.num 10)])]) ∧
    AppJs.update oid1 [("model", JsValue.str "m"), ("junk", JsValue.null)]
        [(oid1, [("price", JsValue.num 10)])] =
      AppJs.update oid1
        (stripBody [("model", JsValue.str "m"), ("junk", JsValue.null)])
        [(oid1, [("price", JsValue.num 10)])] :=
  ⟨update_strip_and_empty_rejected.1 oid1 [("price", JsValue.null), ("model", JsValue.str "")]
      [(oid1, [("price", JsValue.num 10)])] (by decide) (by decide),
   update_strip_and_empty_rejected.2 oid1 [("model", JsValue.str "m"), ("junk", JsValue.null)]
      [(oid1, [("price", JsValue.num 10)])]⟩

/-- A key found in the left part of an appended association list is
found in the whole. -/
theorem lookup_append_left {β : Type} {l1 l2 : List (String × β)} {k : String} {v : β}
    (h : l1.lookup k = some v) : (l1 ++ l2).lookup k = some v := by
  induction l1 with
  | nil => simp [List.lookup] at h
  | cons e rest ih =>
    cases e with
    | mk k0 v0 =>
      rw [lookup_cons] at h
      rw [List.cons_append, lookup_cons]
      by_cases hk : k = k0
      · rw [if_pos hk] at h
        rw [if_pos hk]
        exact h
      · rw [if_neg hk] at h
        rw [if_neg hk]
        exact ih h

/-- A key absent from the keys of an association list does not
resolve. -/
theorem lookup_eq_none_of_not_mem_keys {β : Type} {l : List (String × β)} {k : String}
    (h : k ∉ l.map Prod.fst) : l.lookup k = none := by
  cases hl : l.lookup k with
  | none => rfl
  | some v => exact absurd (List.mem_map_of_mem Prod.fst (lookup_mem hl)) h

/-- Lookup skips over the left part of an append when the key is not
there. -/
theorem lookup_append_of_none {β : Type} {l1 l2 : List (String × β)} {k : String}
    (h : l1.lookup k = none) : (l1 ++ l2).lookup k = l2.lookup k := by
  induction l1 with
  | nil => rfl
  | cons e rest ih =>
    cases e with
    | mk k0 v0 =>
      rw [lookup_cons] at h
      by_cases hk : k = k0
      · rw [if_pos hk] at h
        simp at h
      · rw [if_neg hk] at h
        rw [List.cons_append, lookup_cons, if_neg hk]
        exact ih h

/-- Counterexample for C7: a successful `part_000` / `api/app` partial
update applies the merge but does not stamp `updatedAt` — the updated
document still has no `updatedAt` field. -/
theorem update_updatedAt_not_stamped_cex :
    (AppJs.update oid1 [("price", JsValue.num 3)]
      [(oid1, [("stock", JsValue.num 5)])]).1.status = 200 ∧
    (AppJs.update oid1 [("price", JsValue.num 3)]
      [(oid1, [("stock", JsValue.num 5)])]).2 =
      [(oid1, [("stock", JsValue.num 5), ("price", JsValue.num 3)])] ∧
    getField [("stock", JsValue.num 5), ("price", JsValue.num 3)] "updatedAt" =
      JsValue.undef := by
  refine ⟨by decide, by decide, by decide⟩

/-- C7 (amended): every successful partial update is applied as a merge
that sets exactly the sanitised fields, leaves every other field of the
stored document unchanged, never renames or removes any id, and leaves
all other documents untouched; the standalone `src/index.js` handler
additionally stamps `updatedAt`, while the `part_000` / `api/app`
handler stamps nothing (see the counterexample). -/
theorem update_merge_frame :
    (∀ (s : Store) (i : String) (d : Doc) (body : Doc) (now : ℕ) (sanitized : Doc),
        isValidObjectId i = true → s.lookup i = some d →
        IndexJs.sanitizeLoop IndexJs.allowedFields body = Except.ok sanitized →
        sanitized ≠ [] →
        mongoSet d (sanitized ++ [("updatedAt", JsValue.date now)]) ≠ d →
        (IndexJs.update i body now s).1.status = 200 ∧
        (IndexJs.update i body now s).2.lookup i =
          some (mongoSet d (sanitized ++ [("updatedAt", JsValue.date now)])) ∧
        getField (mongoSet d (sanitized ++ [("updatedAt", JsValue.date now)])) "updatedAt" =
          JsValue.date now ∧
        (∀ k, k ∉ sanitized.map Prod.fst → k ≠ "updatedAt" →
          getField (mongoSet d (sanitized ++ [("updatedAt", JsValue.date now)])) k =
            getField d k) ∧
        (∀ k v, sanitized.lookup k = some v →
          getField (mongoSet d (sanitized ++ [("updatedAt", JsValue.date now)])) k = v) ∧
        (IndexJs.update i body now s).2.map Prod.fst = s.map Prod.fst ∧
        (∀ j, j ≠ i → (IndexJs.update i body now s).2.lookup j = s.lookup j)) ∧
    (∀ (s : Store) (i : String) (d : Doc) (body : Doc) (m : Doc),
        isValidObjectId i = true → s.lookup i = some d →
        stripBody body ≠ [] →
        AppJs.coerceUpdates (stripBody body) = Except.ok m →
        (AppJs.update i body s).1.status = 200 ∧
        (AppJs.update i body s).2.lookup i = some (mongoSet d m) ∧
        (∀ k, k ∉ (stripBody body).map Prod.fst →
          getField (mongoSet d m) k = getField d k) ∧
        ((body.map Prod.fst).Nodup →
          ∀ k v, m.lookup k = some v → getField (mongoSet d m) k = v) ∧
        (AppJs.update i body s).2.map Prod.fst = s.map Prod.fst ∧
        (∀ j, j ≠ i → (AppJs.update i body s).2.lookup j = s.lookup j)) := by
  constructor
  · intro s i d body now sanitized hv hl hsan hne hmod
    have hisEmpty : sanitized.isEmpty = false := by
      cases sanitized with
      | nil => exact absurd rfl hne
      | cons a t => rfl
    have hup : IndexJs.update i body now s =
        (⟨200, "Product updated successfully", none, some 1, none⟩,
          updateDocAt s i
            (fun dd => mongoSet dd (sanitized ++ [("updatedAt", JsValue.date now)]))) := by
      simp only [IndexJs.update, hv, Bool.not_true, Bool.false_eq_true, if_false, hl, hsan,
        hisEmpty]
      rw [if_neg hmod]
    have hsub : List.Sublist (sanitized.map Prod.fst) IndexJs.allowedFields :=
      sanitizeLoop_keys hsan
    have hnodup : (sanitized.map Prod.fst).Nodup :=
      List.Nodup.sublist hsub (by decide)
    have hnotmem : "updatedAt" ∉ sanitized.map Prod.fst := fun hm =>
      absurd (hsub.subset hm) (by decide)
    have hkeys : (sanitized ++ [("updatedAt", JsValue.date now)]).map Prod.fst =
        sanitized.map Prod.fst ++ ["updatedAt"] := by
      rw [List.map_append]
      rfl
    have hnodup2 : ((sanitized ++ [("updatedAt", JsValue.date now)]).map Prod.fst).Nodup := by
      rw [hkeys]
      refine List.Nodup.append hnodup (List.nodup_singleton _) ?_
      intro x hx hy
      rw [List.mem_singleton] at hy
      subst hy
      exact hnotmem hx
    refine ⟨by rw [hup], ?_, ?_, ?_, ?_, ?_, ?_⟩
    · rw [hup]
      exact lookup_updateDocAt_self
        (fun dd => mongoSet dd (sanitized ++ [("updatedAt", JsValue.date now)])) hl
    · refine getField_mongoSet_lookup _ _ _ _ hnodup2 ?_
      rw [lookup_append_of_none (lookup_eq_none_of_not_mem_keys hnotmem)]
      rw [lookup_cons, if_pos rfl]
    · intro k hk hkA
      refine getField_mongoSet_not_mem _ _ _ ?_
      rw [hkeys]
      intro hm
      cases List.mem_append.mp hm with
      | inl h => exact hk h
      | inr h => exact hkA (List.mem_singleton.mp h)
    · intro k v hkv
      exact getField_mongoSet_lookup _ _ _ _ hnodup2 (lookup_append_left hkv)
    · rw [hup]
      exact updateDocAt_keys s i
        (fun dd => mongoSet dd (sanitized ++ [("updatedAt", JsValue.date now)]))
    · intro j hj
      rw [hup]
      exact lookup_updateDocAt_ne s i j
        (fun dd => mongoSet dd (sanitized ++ [("updatedAt", JsValue.date now)])) hj
  · intro s i d body m hv hl hne hcu
    have hisEmpty : (stripBody body).isEmpty = false := by
      cases h : stripBody body with
      | nil => exact absurd h hne
      | cons a t => rfl
    have hup : AppJs.update i body s =
        (⟨200, "Product updated successfully", none, some 1, none⟩,
          updateDocAt s i (fun dd => mongoSet dd m)) := by
      simp only [AppJs.update, hv, Bool.not_true, Bool.false_eq_true, if_false, hisEmpty,
        hcu, hl]
    have hkeysm : m.map Prod.fst = (stripBody body).map Prod.fst := coerceUpdates_keys hcu
    refine ⟨by rw [hup], ?_, ?_, ?_, ?_, ?_⟩
    · rw [hup]
      exact lookup_updateDocAt_self (fun dd => mongoSet dd m) hl
    · intro k hk
      refine getField_mongoSet_not_mem _ _ _ ?_
      rw [hkeysm]
      exact hk
    · intro hbody k v hkv
      have hsub : List.Sublist ((stripBody body).map Prod.fst) (body.map Prod.fst) :=
        List.Sublist.map Prod.fst (List.filter_sublist _)
      have hnodup : (m.map Prod.fst).Nodup := by
        rw [hkeysm]
        exact List.Nodup.sublist hsub hbody
      exact getField_mongoSet_lookup _ _ _ _ hnodup hkv
    · rw [hup]
      exact updateDocAt_keys s i (fun dd => mongoSet dd m)
    · intro j hj
      rw [hup]
      exact lookup_updateDocAt_ne s i j (fun dd => mongoSet dd m) hj

/-- Witness for C7 (amended): a concrete successful update through both
variants, checking the 200 status, the merged document, the `updatedAt`
stamp (standalone variant), and that the untouched field `extra`
survives. -/
theorem update_merge_frame_witness :
    (IndexJs.update oid1 [("price", JsValue.num 3)] 9
      [(oid1, [("stock", JsValue.num 5), ("extra", JsValue.str "e")])]).1.status = 200 ∧
    (IndexJs.update oid1 [("price", JsValue.num 3)] 9
      [(oid1, [("stock", JsValue.num 5), ("extra", JsValue.str "e")])]).2.lookup oid1 =
      some (mongoSet [("stock", JsValue.num 5), ("extra", JsValue.str "e")]
        ([("price", JsValue.num 3)] ++ [("updatedAt", JsValue.date 9)])) ∧
    getField (mongoSet [("stock", JsValue.num 5), ("extra", JsValue.str "e")]
      ([("price", JsValue.num 3)] ++ [("updatedAt", JsValue.date 9)])) "updatedAt" =
      JsValue.date 9 ∧
    getField (mongoSet [("stock", JsValue.num 5), ("extra", JsValue.str "e")]
      ([("price", JsValue.num 3)] ++ [("updatedAt", JsValue.date 9)])) "extra" =
      getField [("stock", JsValue.num 5), ("extra", JsValue.str "e")] "extra" ∧
    (AppJs.update oid1 [("price", JsValue.num 3)]
      [(oid1, [("stock", JsValue.num 5), ("extra", JsValue.str "e")])]).1.status = 200 ∧
    (AppJs.update oid1 [("price", JsValue.num 3)]
      [(oid1, [("stock", JsValue.num 5), ("extra", JsValue.str "e")])]).2.lookup oid1 =
      some (mongoSet [("stock", JsValue.num 5), ("extra", JsValue.str "e")]
        [("price", JsValue.num 3)]) ∧
    getField (mongoSet [("stock", JsValue.num 5), ("extra", JsValue.str "e")]
      [("price", JsValue.num 3)]) "extra" =
      getField [("stock", JsValue.num 5), ("extra", JsValue.str "e")] "extra" := by
  have hA := update_merge_frame.1
    [(oid1, [("stock", JsValue.num 5), ("extra", JsValue.str "e")])] oid1
    [("stock", JsValue.num 5), ("extra", JsValue.str "e")] [("price", JsValue.num 3)] 9
    [("price", JsValue.num 3)] (by decide) (by decide) rfl (by decide) (by decide)
  have hB := update_merge_frame.2
    [(oid1, [("stock", JsValue.num 5), ("extra", JsValue.str "e")])] oid1
    [("stock", JsValue.num 5), ("extra", JsValue.str "e")] [("price", JsValue.num 3)]
    [("price", JsValue.num 3)] (by decide) (by decide) (by decide) rfl
  exact ⟨hA.1, hA.2.1, hA.2.2.1, hA.2.2.2.1 "extra" (by decide) (by decide),
    hB.1, hB.2.1, hB.2.2.1 "extra" (by decide)⟩

/-- C8: a syntactically invalid id makes get-by-id, partial update,
sell and delete (in every variant that has the route) return the 400
"Invalid product ID format" response with the store unchanged, for
every store, body and clock — the outcome does not depend on the store,
so the rejection happens before any store access. -/
theorem invalid_id_rejected_400 :
    ∀ (i : String), isValidObjectId i = false →
      ∀ (s : Store) (body : Doc) (now : ℕ),
        AppJs.getById i s = (Resp.bad "Invalid product ID format", s) ∧
        AppJs.update i body s = (Resp.bad "Invalid product ID format", s) ∧
        AppJs.sell i s = (Resp.bad "Invalid product ID format", s) ∧
        AppJs.deleteById i s = (Resp.bad "Invalid product ID format", s) ∧
        IndexJs.update i body now s = (Resp.bad "Invalid product ID format", s) ∧
        IndexJs.sell i now s = (Resp.bad "Invalid product ID format", s) ∧
        IndexJs.deleteById i s = (Resp.bad "Invalid product ID format", s) := by
  intro i hv s body now
  refine ⟨?_, ?_, ?_, ?_, ?_, ?_, ?_⟩
  · simp only [AppJs.getById, hv, Bool.not_false, if_true]
  · simp only [AppJs.update, hv, Bool.not_false, if_true]
  · simp only [AppJs.sell, hv, Bool.not_false, if_true]
  · simp only [AppJs.deleteById, hv, Bool.not_false, if_true]
  · simp only [IndexJs.update, hv, Bool.not_false, if_true]
  · simp only [IndexJs.sell, hv, Bool.not_false, if_true]
  · simp only [IndexJs.deleteById, hv, Bool.not_false, if_true]

/-- Witness for C8: the three-character id "xyz" is rejected by every
single-document route of both variants. -/
theorem invalid_id_rejected_400_witness :
    AppJs.getById "xyz" [] = (Resp.bad "Invalid product ID format", []) ∧
    AppJs.update "xyz" [("price", JsValue.num 1)] [] =
      (Resp.bad "Invalid product ID format", []) ∧
    AppJs.sell "xyz" [] = (Resp.bad "Invalid product ID format", []) ∧
    AppJs.deleteById "xyz" [] = (Resp.bad "Invalid product ID format", []) ∧
    IndexJs.update "xyz" [("price", JsValue.num 1)] 0 [] =
      (Resp.bad "Invalid product ID format", []) ∧
    IndexJs.sell "xyz" 0 [] = (Resp.bad "Invalid product ID format", []) ∧
    IndexJs.deleteById "xyz" [] = (Resp.bad "Invalid product ID format", []) :=
  invalid_id_rejected_400 "xyz" (by decide) [] [("price", JsValue.num 1)] 0

/-- C9: on a well-formed id with no matching document every
single-document operation returns 404 "Product not found" and leaves
the store unchanged (for the strip-variant update, provided the body
survives validation); and under unique ids deleting twice gives first a
200 with `deletedCount = 1` and then a 404. -/
theorem missing_id_404_and_delete_twice :
    (∀ (i : String) (s : Store) (body : Doc) (now : ℕ),
        isValidObjectId i = true → s.lookup i = none →
        AppJs.getById i s = (Resp.notFound "Product not found", s) ∧
        AppJs.sell i s = (Resp.notFound "Product not found", s) ∧
        AppJs.deleteById i s = (Resp.notFound "Product not found", s) ∧
        IndexJs.update i body now s = (Resp.notFound "Product not found", s) ∧
        IndexJs.sell i now s = (Resp.notFound "Product not found", s) ∧
        IndexJs.deleteById i s = (Resp.notFound "Product not found", s)) ∧
    (∀ (i : String) (body : Doc) (s : Store) (m : Doc),
        isValidObjectId i = true → s.lookup i = none →
        stripBody body ≠ [] → AppJs.coerceUpdates (stripBody body) = Except.ok m →
        AppJs.update i body s = (Resp.notFound "Product not found", s)) ∧
    (∀ (i : String) (s : Store) (d : Doc),
        isValidObjectId i = true → (s.map Prod.fst).Nodup → s.lookup i = some d →
        (AppJs.deleteById i s).1.status = 200 ∧
        (AppJs.deleteById i s).1.deletedCount = some 1 ∧
        (AppJs.deleteById i ((AppJs.deleteById i s).2)).1.status = 404 ∧
        (IndexJs.deleteById i s).1.status = 200 ∧
        (IndexJs.deleteById i s).1.deletedCount = some 1 ∧
        (IndexJs.deleteById i ((IndexJs.deleteById i s).2)).1.status = 404) := by
  refine ⟨?_, ?_, ?_⟩
  · intro i s body now hv hl
    refine ⟨?_, ?_, ?_, ?_, ?_, ?_⟩
    · simp only [AppJs.getById, hv, Bool.not_true, Bool.false_eq_true, if_false, hl]
    · simp only [AppJs.sell, hv, Bool.not_true, Bool.false_eq_true, if_false, hl]
    · simp only [AppJs.deleteById, hv, Bool.not_true, Bool.false_eq_true, if_false, hl,
        Option.isSome_none, Bool.false_eq_true, if_false, removeFirst_lookup_none hl]
      rw [if_pos trivial]
    · simp only [IndexJs.update, hv, Bool.not_true, Bool.false_eq_true, if_false, hl]
    · simp only [IndexJs.sell, hv, Bool.not_true, Bool.false_eq_true, if_false, hl]
    · simp only [IndexJs.deleteById, hv, Bool.not_true, Bool.false_eq_true, if_false, hl]
  · intro i body s m hv hl hne hcu
    have hisEmpty : (stripBody body).isEmpty = false := by
      cases h : stripBody body with
      | nil => exact absurd h hne
      | cons a t => rfl
    simp only [AppJs.update, hv, Bool.not_true, Bool.false_eq_true, if_false, hisEmpty,
      hcu, hl]
  · intro i s d hv hnd hl
    have h1 : AppJs.deleteById i s =
        (⟨200, "Product deleted successfully", some 1, none, none⟩, removeFirst s i) := by
      simp only [AppJs.deleteById, hv, Bool.not_true, Bool.false_eq_true, if_false, hl,
        Option.isSome_some, if_true]
      rw [if_neg (by norm_num : ¬ (1 : ℕ) = 0)]
    have h2 : IndexJs.deleteById i s =
        (⟨200, "Product deleted successfully", some 1, none, none⟩, removeFirst s i) := by
      simp only [IndexJs.deleteById, hv, Bool.not_true, Bool.false_eq_true, if_false, hl,
        Option.isSome_some, if_true]
      rw [if_neg (by norm_num : ¬ (1 : ℕ) = 0)]
    have hl2 : (removeFirst s i).lookup i = none := lookup_removeFirst_self hnd
    have h3 : AppJs.deleteById i (removeFirst s i) =
        (Resp.notFound "Product not found", removeFirst s i) := by
      simp only [AppJs.deleteById, hv, Bool.not_true, Bool.false_eq_true, if_false, hl2,
        Option.isSome_none, if_false, removeFirst_lookup_none hl2]
      rw [if_pos trivial]
    have h4 : IndexJs.deleteById i (removeFirst s i) =
        (Resp.notFound "Product not found", removeFirst s i) := by
      simp only [IndexJs.deleteById, hv, Bool.not_true, Bool.false_eq_true, if_false, hl2]
    refine ⟨by rw [h1], by rw [h1], ?_, by rw [h2], by rw [h2], ?_⟩
    · rw [h1]
      show (AppJs.deleteById i (removeFirst s i)).1.status = 404
      rw [h3]
      rfl
    · rw [h2]
      show (IndexJs.deleteById i (removeFirst s i)).1.status = 404
      rw [h4]
      rfl

/-- Witness for C9: a fresh well-formed id misses on every route; a
one-document store yields 200 with `deletedCount = 1` and then 404 on
repeated delete. -/
theorem missing_id_404_and_delete_twice_witness :
    (AppJs.getById oid1 [] = (Resp.notFound "Product not found", []) ∧
      AppJs.sell oid1 [] = (Resp.notFound "Product not found", []) ∧
      AppJs.deleteById oid1 [] = (Resp.notFound "Product not found", []) ∧
      IndexJs.update oid1 [("price", JsValue.num 1)] 0 [] =
        (Resp.notFound "Product not found", []) ∧
      IndexJs.sell oid1 0 [] = (Resp.notFound "Product not found", []) ∧
      IndexJs.deleteById oid1 [] = (Resp.notFound "Product not found", [])) ∧
    AppJs.update oid1 [("price", JsValue.num 1)] [] =
      (Resp.notFound "Product not found", []) ∧
    ((AppJs.deleteById oid1 [(oid1, [("price", JsValue.num 1)])]).1.status = 200 ∧
      (AppJs.deleteById oid1 [(oid1, [("price", JsValue.num 1)])]).1.deletedCount = some 1 ∧
      (AppJs.deleteById oid1
        ((AppJs.deleteById oid1 [(oid1, [("price", JsValue.num 1)])]).2)).1.status = 404 ∧
      (IndexJs.deleteById oid1 [(oid1, [("price", JsValue.num 1)])]).1.status = 200 ∧
      (IndexJs.deleteById oid1 [(oid1, [("price", JsValue.num 1)])]).1.deletedCount = some 1 ∧
      (IndexJs.deleteById oid1
        ((IndexJs.deleteById oid1 [(oid1, [("price", JsValue.num 1)])]).2)).1.status = 404) :=
  ⟨missing_id_404_and_delete_twice.1 oid1 [] [("price", JsValue.num 1)] 0
      (by decide) (by decide),
   missing_id_404_and_delete_twice.2.1 oid1 [("price", JsValue.num 1)] []
      [("price", JsValue.num 1)] (by decide) (by decide) (by decide) rfl,
   missing_id_404_and_delete_twice.2.2 oid1 [(oid1, [("price", JsValue.num 1)])]
      [("price", JsValue.num 1)] (by decide) (by decide) (by decide)⟩

/-- C10: there is a creation payload with a name-like field present,
`stock` present, and `price` equal to the number 0 that the `part_000` /
`api/app` create handler rejects with the missing-required-fields 400:
the presence check on `price` is a falsiness test, so a zero price is
treated as missing. -/
theorem create_zero_price_required_400 :
    getField [("name", JsValue.str "Widget"), ("price", JsValue.num 0),
        ("stock", JsValue.num 3)] "name" = JsValue.str "Widget" ∧
    getField [("name", JsValue.str "Widget"), ("price", JsValue.num 0),
        ("stock", JsValue.num 3)] "price" = JsValue.num 0 ∧
    getField [("name", JsValue.str "Widget"), ("price", JsValue.num 0),
        ("stock", JsValue.num 3)] "stock" = JsValue.num 3 ∧
    ∀ (s : Store) (newId : String),
      (AppJs.create [("name", JsValue.str "Widget"), ("price", JsValue.num 0),
        ("stock", JsValue.num 3)] s newId).1.status = 400 ∧
      (AppJs.create [("name", JsValue.str "Widget"), ("price", JsValue.num 0),
        ("stock", JsValue.num 3)] s newId).1.message =
        "Missing required fields: name or model, price, and stock are required" ∧
      (AppJs.create [("name", JsValue.str "Widget"), ("price", JsValue.num 0),
        ("stock", JsValue.num 3)] s newId).2 = s := by
  refine ⟨by decide, by decide, by decide, ?_⟩
  intro s newId
  have hreq : AppJs.requiredMissing [("name", JsValue.str "Widget"), ("price", JsValue.num 0),
      ("stock", JsValue.num 3)] = true := by decide
  simp only [AppJs.create, hreq, if_true]
  refine ⟨?_, ?_, ?_⟩ <;> trivial
